import Mathlib

/-!
Verification development for the Guarda webauthn firewall proxy.

The Go sources are shallowly embedded as pure Lean functions.  External
collaborators (the WebAuthn library, the credential store, the encrypted
session store, the backend `whoami` endpoint) are modelled by an `Env`
record holding the outcome each external call would produce during the
request under consideration; the handlers are then deterministic functions
of `Env` and of the request state.  Externally visible actions (forwarding
to the reverse proxy, database mutations, ceremony-store reads/writes,
calls into the WebAuthn primitive) are recorded in an effect trace so that
statements of the form "the request is not forwarded" or "no verification
call is made" are about the trace, not about reachability of code.
-/

namespace Guarda

/-- Externally visible actions a handler can take, in order of occurrence. -/
inductive Effect where
  /-- call to the backend `session2user` endpoint (`userIDFromSession`) -/
  | whoamiCall : Effect
  /-- call to `db.WebauthnStore.GetWebauthnUser` -/
  | getUserCall : Effect
  /-- call to `sessionStore.GetWebauthnSession "authentication"` -/
  | sessionLoad : Effect
  /-- call to `webauthnAPI.FinishLogin` (assertion verification) -/
  | finishLoginCall : Effect
  /-- call to `webauthnAPI.BeginLogin` (ceremony generation) -/
  | beginLoginCall : Effect
  /-- call to `webauthnAPI.BeginRegistration` -/
  | beginRegisterCall : Effect
  /-- call to `sessionStore.SaveWebauthnSession kind` -/
  | sessionSave (kind : String) : Effect
  /-- call to `db.WebauthnStore.Create` -/
  | dbCreate (user : String) : Effect
  /-- call to `db.WebauthnStore.Delete` -/
  | dbDelete (user : String) : Effect
  /-- the request is handed to the reverse proxy (`proxy.ServeHTTP`) -/
  | proxyForward : Effect
  deriving Repr, DecidableEq

/-- Result of running a handler: the HTTP status written by the firewall
itself (`none` when the request was handed to the reverse proxy, whose
backend then produces the response), the response body the firewall wrote,
and the trace of externally visible effects. -/
structure HResult where
  status : Option Nat
  body : String
  effects : List Effect
  deriving Repr, DecidableEq

/-- A `protocol.AuthenticationExtensions` value (Go `map[string]interface{}`
holding string values here).  `none` is the Go nil map, `some l` a non-nil map
whose entries are the association list `l` (no duplicate keys arise in this
code: every map has at most the single key `"txAuthSimple"`). -/
abbrev ExtMap := Option (List (String × String))

/-- First-match lookup in an association list, mirroring Go map indexing. -/
def lookupStr (l : List (String × String)) (k : String) : Option String :=
  List.lookup k l

/-- Equality of the finite maps represented by two association lists:
every key of either list resolves to the same value in both. -/
def mapEquiv (x y : List (String × String)) : Bool :=
  x.all (fun p => lookupStr y p.1 == some p.2) &&
  y.all (fun p => lookupStr x p.1 == some p.2)

/-- Model of `reflect.DeepEqual` on two `AuthenticationExtensions` values:
a nil map is `DeepEqual` only to a nil map (a nil map and a non-nil empty
map are NOT `DeepEqual` in Go); two non-nil maps are compared as finite
maps. -/
def deepEqualExt : ExtMap → ExtMap → Bool
  | none, none => true
  | some x, some y => mapEquiv x y
  | _, _ => false

/-- Outcomes of the external collaborators for the request being handled,
together with the request-independent principal data the handlers consult.
Functions of `String` model data that depends on the submitted blob: an
assertion string carries a signature which is valid or not, and echoes back
the client-data extensions. -/
structure Env where
  /-- outcome of `userIDFromSession` (backend `session2user` call) -/
  userIDFromSession : Except String Int
  /-- `db.WebauthnStore.IsUserEnabled` for the principal in question -/
  isEnabled : Bool
  /-- whether `db.WebauthnStore.GetWebauthnUser` succeeds -/
  getUserOk : Bool
  /-- error text when `GetWebauthnUser` fails -/
  getUserErrMsg : String
  /-- `wuser.WebAuthnName()` of the principal -/
  username : String
  /-- whether `sessionStore.GetWebauthnSession "authentication"` succeeds -/
  sessionOk : Bool
  /-- error text when the authentication session load fails -/
  sessionErrMsg : String
  /-- whether the challenge/signature verification by the external library of a
  given assertion blob succeeds (everything `FinishLogin` checks apart from
  the extensions verifier) -/
  sigValid : String → Bool
  /-- error text when signature verification fails -/
  sigErrMsg : String
  /-- the client-data extensions echoed back inside a given assertion blob -/
  echoed : String → ExtMap
  /-- outcome of `webauthnAPI.BeginLogin` -/
  beginLoginRes : Except String Unit
  /-- outcome of `webauthnAPI.BeginRegistration` -/
  beginRegisterRes : Except String Unit
  /-- whether `sessionStore.SaveWebauthnSession` succeeds -/
  sessionSaveOk : Bool
  /-- error text when the session save fails -/
  sessionSaveErrMsg : String
  /-- how the captured body bytes decode as url-encoded form fields
  (Go `ParseForm`) -/
  decodeForm : List Nat → List (String × String)

/-- State of an `http.Request` as the handlers see it: the bytes still
readable from `r.Body`, and the parsed-form cache `r.Form`/`r.PostForm`
(the Go `ParseForm` function populates it once; later `FormValue` calls hit the cache
and do not touch the body again). -/
structure Req where
  body : List Nat
  form : Option (List (String × String))
  deriving Repr, DecidableEq

/-- Form-field access with the Go default: missing field reads as `""`. -/
def formLookup (l : List (String × String)) (k : String) : String :=
  (lookupStr l k).getD ""

/-- Model of `r.FormValue name`: on the first call the body is read to EOF
and parsed (the parse result is cached in `r.Form`); later calls hit the
cache and leave the body alone. -/
def formValue (env : Env) (r : Req) (name : String) : String × Req :=
  match r.form with
  | some f => (formLookup f name, r)
  | none =>
    let f := env.decodeForm r.body
    (formLookup f name, { body := [], form := some f })

/-- The form fields `FormValue` resolves against on request state `r`:
the cache if populated, otherwise the decoding of the current body. -/
def currentForm (env : Env) (r : Req) : List (String × String) :=
  match r.form with
  | some f => f
  | none => env.decodeForm r.body

/-- Model of `checkWebauthnAssertion` (main.go): fetch the webauthn user,
load the `"authentication"` session, then call `webauthnAPI.FinishLogin`
with the `verifyTxAuthSimple` extensions verifier, which demands
`reflect.DeepEqual(expectedExtensions, clientDataExtensions)`.  Returns the
Go error outcome plus the trace of external calls made. -/
def checkWebauthnAssertion (env : Env) (expectedExtensions : ExtMap)
    (assertion : String) : Except String Unit × List Effect :=
  if !env.getUserOk then (.error env.getUserErrMsg, [.getUserCall])
  else if !env.sessionOk then
    (.error env.sessionErrMsg, [.getUserCall, .sessionLoad])
  else
    let tr : List Effect := [.getUserCall, .sessionLoad, .finishLoginCall]
    if !(deepEqualExt expectedExtensions (env.echoed assertion)) then
      (.error ("Extensions verification failed: Expected map, Received map"), tr)
    else if !(env.sigValid assertion) then (.error env.sigErrMsg, tr)
    else (.ok (), tr)

/-- Marshaled body of a successful options response (the exact JSON text of
the `PublicKeyCredentialRequestOptions` is owned by the external library;
the model only needs it to be a non-empty payload carrying the
extensions). -/
def jsonOptions (ext : ExtMap) : String :=
  "\x7bpublicKey options, extensions " ++ toString (repr ext) ++ "\x7d"

/-- Marshaled body of the `redirectTo` success response. -/
def jsonRedirect : String := "\x7b\"redirectTo\": \"\"\x7d"

/-- The expected transaction extension `disableWebauthn` constructs:
`extensions["txAuthSimple"] = "Confirm disable webauthn for <name>"`. -/
def disableExpected (env : Env) : ExtMap :=
  some [("txAuthSimple", "Confirm disable webauthn for " ++ env.username)]

/-- Model of `disableWebauthn` (main.go, lines 584-645).  Note: it has no
`IsUserEnabled` check at all — the assertion is demanded and verified for
every principal. -/
def disableWebauthn (env : Env) (r : Req) : HResult × Req :=
  match env.userIDFromSession with
  | .error e => (⟨some 500, e, [.whoamiCall]⟩, r)
  | .ok _ =>
    let assertion := (formValue env r "assertion").1
    let r1 := (formValue env r "assertion").2
    if assertion = "" then
      (⟨some 500, "Invalid form-data parameters", [.whoamiCall]⟩, r1)
    else if !env.getUserOk then
      (⟨some 400, env.getUserErrMsg, [.whoamiCall, .getUserCall]⟩, r1)
    else
      match (checkWebauthnAssertion env (disableExpected env) assertion).1,
          (checkWebauthnAssertion env (disableExpected env) assertion).2 with
      | .error e, tr =>
        (⟨some 400, e, [.whoamiCall, .getUserCall] ++ tr⟩, r1)
      | .ok _, tr =>
        (⟨some 200, jsonRedirect,
          [.whoamiCall, .getUserCall] ++ tr ++ [.dbDelete env.username]⟩, r1)

/-- The expected transaction extension `deleteRepositoryHelper` constructs:
`"Confirm repository delete: <username>/<reponame>"`. -/
def deleteRepoExpected (username reponame : String) : ExtMap :=
  some [("txAuthSimple",
    "Confirm repository delete: " ++ username ++ "/" ++ reponame)]

/-- Model of `deleteRepositoryHelper` (main.go, lines 647-696).  `username`
and `reponame` are the mux route variables.  When the principal has
webauthn enabled, the assertion form field is read (hitting the form cache
populated by `repoSettings`) and verified against the repository-delete
transaction extension; otherwise the request is forwarded as-is. -/
def deleteRepositoryHelper (env : Env) (username reponame : String)
    (r : Req) : HResult × Req :=
  match env.userIDFromSession with
  | .error e => (⟨some 500, e, [.whoamiCall]⟩, r)
  | .ok _ =>
    if env.isEnabled then
      let assertion := (formValue env r "assertion").1
      let r1 := (formValue env r "assertion").2
      if assertion = "" then
        (⟨some 500, "Invalid form-data parameters", [.whoamiCall]⟩, r1)
      else
        match (checkWebauthnAssertion env
              (deleteRepoExpected username reponame) assertion).1,
            (checkWebauthnAssertion env
              (deleteRepoExpected username reponame) assertion).2 with
        | .error e, tr => (⟨some 400, e, [.whoamiCall] ++ tr⟩, r1)
        | .ok _, tr =>
          (⟨none, "", [.whoamiCall] ++ tr ++ [.proxyForward]⟩, r1)
    else
      (⟨none, "", [.whoamiCall, .proxyForward]⟩, r)

/-- Model of `repoSettings` (main.go, lines 698-729): capture the body with
a `RequestRefiller`, parse the `action` form field, refill the body, then
dispatch on `action` — `"delete"` goes to `deleteRepositoryHelper`,
anything else is proxied onward unchanged. -/
def repoSettings (env : Env) (username reponame : String)
    (r0 : Req) : HResult × Req :=
  let data := r0.body
  let r1 : Req := { r0 with body := data }
  let action := (formValue env r1 "action").1
  let r2 := (formValue env r1 "action").2
  if action = "" then
    (⟨some 500, "Invalid form-data parameters", []⟩, r2)
  else
    let r3 : Req := { r2 with body := data }
    if action = "delete" then deleteRepositoryHelper env username reponame r3
    else (⟨none, "", [.proxyForward]⟩, r3)

/-- Model of `finishLogin` (main.go, lines 539-582): capture the body,
parse `user_name` and `assertion`, and — only when the user has webauthn
enabled — run `checkWebauthnAssertion` with a nil expected-extension map;
the body is refilled before the request is proxied onward. -/
def finishLogin (env : Env) (r0 : Req) : HResult × Req :=
  let data := r0.body
  let r1 : Req := { r0 with body := data }
  let username := (formValue env r1 "user_name").1
  let r2 := (formValue env r1 "user_name").2
  let assertion := (formValue env r2 "assertion").1
  let r3 := (formValue env r2 "assertion").2
  if username = "" ∨ assertion = "" then
    (⟨some 500, "Invalid form-data parameters", []⟩, r3)
  else if env.isEnabled then
    match (checkWebauthnAssertion env none assertion).1,
        (checkWebauthnAssertion env none assertion).2 with
    | .error e, tr => (⟨some 400, e, tr⟩, r3)
    | .ok _, tr =>
      (⟨none, "", tr ++ [.proxyForward]⟩, { r3 with body := data })
  else
    (⟨none, "", [.proxyForward]⟩, { r3 with body := data })

/-- Model of the legacy `finishLogin` (src/unnamed/part_000, lines
420-494): identical orchestration, but the extensions verifier handed to
`FinishLogin` is `noVerify`, which unconditionally accepts whatever
extensions the client echoes. -/
def finishLoginLegacy (env : Env) (r0 : Req) : HResult × Req :=
  let data := r0.body
  let r1 : Req := { r0 with body := data }
  let username := (formValue env r1 "user_name").1
  let r2 := (formValue env r1 "user_name").2
  let assertion := (formValue env r2 "assertion").1
  let r3 := (formValue env r2 "assertion").2
  if username = "" ∨ assertion = "" then
    (⟨some 500, "Invalid form-data parameters", []⟩, r3)
  else if env.isEnabled then
    if !env.getUserOk then
      (⟨some 400, env.getUserErrMsg, [.getUserCall]⟩, r3)
    else if !env.sessionOk then
      (⟨some 400, env.sessionErrMsg, [.getUserCall, .sessionLoad]⟩, r3)
    else if !(env.sigValid assertion) then
      (⟨some 400, env.sigErrMsg,
        [.getUserCall, .sessionLoad, .finishLoginCall]⟩, r3)
    else
      (⟨none, "", [.getUserCall, .sessionLoad, .finishLoginCall,
        .proxyForward]⟩, { r3 with body := data })
  else
    (⟨none, "", [.proxyForward]⟩, { r3 with body := data })

/-- Model of `beginAttestation_base` (main.go, lines 432-485): if the
queried principal does not have webauthn enabled, respond 200 with no body
and do nothing else; otherwise fetch the user, call
`webauthnAPI.BeginLogin`, attach `clientExtensions` to the options, and
save the `"authentication"` session. -/
def beginAttestation_base (env : Env) (clientExtensions : ExtMap) : HResult :=
  if !env.isEnabled then ⟨some 200, "", []⟩
  else if !env.getUserOk then
    ⟨some 400, env.getUserErrMsg, [.getUserCall]⟩
  else
    match env.beginLoginRes with
    | .error e => ⟨some 500, e, [.getUserCall, .beginLoginCall]⟩
    | .ok _ =>
      if !env.sessionSaveOk then
        ⟨some 500, env.sessionSaveErrMsg,
          [.getUserCall, .beginLoginCall, .sessionSave "authentication"]⟩
      else
        ⟨some 200, jsonOptions clientExtensions,
          [.getUserCall, .beginLoginCall, .sessionSave "authentication"]⟩

/-- Model of `beginLogin` (main.go, lines 519-537): parse `user_name`, then
delegate to `beginAttestation_base` with a nil extension map. -/
def beginLogin (env : Env) (r : Req) : HResult × Req :=
  let username := (formValue env r "user_name").1
  let r1 := (formValue env r "user_name").2
  if username = "" then
    (⟨some 500, "Invalid form-data parameters", []⟩, r1)
  else (beginAttestation_base env none, r1)

/-- Model of `beginAttestation` (main.go, lines 487-517): resolve the
principal from the session cookie, parse `auth_text`, build the
`txAuthSimple` extension from it, and delegate to
`beginAttestation_base`. -/
def beginAttestation (env : Env) (r : Req) : HResult × Req :=
  match env.userIDFromSession with
  | .error e => (⟨some 500, e, [.whoamiCall]⟩, r)
  | .ok _ =>
    let authText := (formValue env r "auth_text").1
    let r1 := (formValue env r "auth_text").2
    if authText = "" then
      (⟨some 500, "Invalid form-data parameters", [.whoamiCall]⟩, r1)
    else
      let res := beginAttestation_base env (some [("txAuthSimple", authText)])
      (⟨res.status, res.body, .whoamiCall :: res.effects⟩, r1)

/-- Decimal digits of a string, if every character is a digit and the
string is non-empty. -/
def decDigits : List Char → Option Nat
  | [] => none
  | [c] => if c.isDigit then some (c.toNat - 48) else none
  | c :: cs =>
    match decDigits cs, c.isDigit with
    | some n, true => some ((c.toNat - 48) * 10 ^ cs.length + n)
    | _, _ => none

/-- Model of Go `strconv.ParseInt(s, 10, 64)`: an optional sign followed by
decimal digits; values outside the signed 64-bit range are a range error.
Error texts follow the `strconv` format. -/
def go_parseInt64 (s : String) : Except String Int :=
  let syntaxErr : Except String Int :=
    .error ("strconv.ParseInt: parsing \"" ++ s ++ "\": invalid syntax")
  let rangeErr : Except String Int :=
    .error ("strconv.ParseInt: parsing \"" ++ s ++ "\": value out of range")
  match s.toList with
  | [] => syntaxErr
  | c :: cs =>
    let (neg, digits) : Bool × List Char :=
      if c = '-' then (true, cs)
      else if c = '+' then (false, cs)
      else (false, c :: cs)
    match decDigits digits with
    | none => syntaxErr
    | some n =>
      let v : Int := if neg then -(n : Int) else (n : Int)
      if v < -(2 ^ 63) ∨ (2 ^ 63 - 1) < v then rangeErr else .ok v

/-- Model of `beginRegister` (main.go, lines 309-370): parse the `username`
and `userID` form fields (rejecting an empty name or a non-numeric id
before any external call), then call `webauthnAPI.BeginRegistration` and
save the `"registration"` session. -/
def beginRegister (env : Env) (r : Req) : HResult × Req :=
  let username := (formValue env r "username").1
  let r1 := (formValue env r "username").2
  if username = "" then
    (⟨some 500, "Invalid form-data parameters", []⟩, r1)
  else
    let uidStr := (formValue env r1 "userID").1
    let r2 := (formValue env r1 "userID").2
    match go_parseInt64 uidStr with
    | .error e => (⟨some 500, e, []⟩, r2)
    | .ok _ =>
      match env.beginRegisterRes with
      | .error e => (⟨some 500, e, [.beginRegisterCall]⟩, r2)
      | .ok _ =>
        if !env.sessionSaveOk then
          (⟨some 500, env.sessionSaveErrMsg,
            [.beginRegisterCall, .sessionSave "registration"]⟩, r2)
        else
          (⟨some 200, jsonOptions none,
            [.beginRegisterCall, .sessionSave "registration"]⟩, r2)

/-- Model of `ioutil.ReadAll(r.Body)`: yields the readable bytes and leaves
the stream at EOF. -/
def goReadAll (r : Req) : List Nat × Req :=
  (r.body, { r with body := [] })

/-- Model of the `RequestRefiller` of main.go (lines 193-221): the body
bytes captured at construction time. -/
structure RequestRefiller where
  data : List Nat
  deriving Repr, DecidableEq

/-- Model of `rf.Refill()`: reload `r.Body` from the captured bytes. -/
def RequestRefiller.refillReq (rf : RequestRefiller) (r : Req) : Req :=
  { r with body := rf.data }

/-- Model of `NewRequestRefiller` (main.go): read the whole body, store it,
and refill the request since it was consumed during setup.  Capture-stream
errors make construction fail in Go; the bodies of this model are already pure
byte lists, so construction always succeeds here and the theorems about it
speak only of successfully captured requests. -/
def NewRequestRefiller (r : Req) : RequestRefiller × Req :=
  let (data, r1) := goReadAll r
  let rf : RequestRefiller := ⟨data⟩
  (rf, rf.refillReq r1)

/-- Model of the framework `WebauthnFirewall.ServeHTTP` dispatcher
(src/unnamed/part_001, lines 167-175): look up the declared host of the request
in `reverseProxies` (built from `ReverseProxyTargetMap`); on a hit, forward
to that backend; otherwise `w.Write` a `"403: Host forbidden"` body.  In Go
a `Write` without a preceding `WriteHeader` sends an implicit HTTP 200, so
the model records status 200 on the miss path. -/
def fwServeHTTP (targetMap : List (String × String)) (host : String) :
    HResult :=
  match lookupStr targetMap host with
  | some _ => ⟨none, "", [.proxyForward]⟩
  | none => ⟨some 200, "403: Host forbidden " ++ host, []⟩

/-- State of an `ExtendedRequest` of the framework: the readable body
bytes, the body bytes captured for refilling, and the sticky error slot
`r.err`.  Modelled from the spec: the `ExtendedRequest` struct itself is
not among the given sources (only its accessor methods are); per §4.1 and
§4.2 it couples a Buffered Request (capture once, rewind many) with one
error slot per request-accessor session. -/
structure ExtendedRequest where
  body : List Nat
  data : List Nat
  err : Option String
  deriving Repr, DecidableEq

/-- Modelled from the spec: `r.Refill()` of the framework rewinds the
Buffered Request so the body stream again holds the captured bytes
(§4.1). -/
def ExtendedRequest.refillExt (r : ExtendedRequest) : ExtendedRequest :=
  { r with body := r.data }

/-- Model of `getInput_WithErr_Helper`
(src/webauthn_firewall/extended_request_handlers.go, lines 112-128): if a
prior error is recorded in `r.err` it is passed onward without invoking the
getter; otherwise the getter runs, and a failure is recorded in `r.err`.
The getter is abstracted by the result it would produce on this request;
the returned `Bool` reports whether the underlying lookup was performed. -/
def getInput_WithErr_Helper (r : ExtendedRequest)
    (fnResult : Except String String) :
    Except String String × ExtendedRequest × Bool :=
  match r.err with
  | some e => (.error e, r, false)
  | none =>
    match fnResult with
    | .error e => (.error e, { r with err := some e }, true)
    | .ok v => (.ok v, r, true)

/-- Model of `GetContext_WithErr`
(src/webauthn_firewall/extended_request_handlers.go, lines 223-243): the
context getter table is the association list `getters` from context name to
the result the registered resolver would produce.  Note there is no check
of `r.err` before the lookup: the resolver runs (and its outcome is
returned) regardless of any prior accessor failure.  The returned `Bool`
reports whether a resolver was invoked. -/
def GetContext_WithErr (getters : List (String × Except String String))
    (r : ExtendedRequest) (contextName : String) :
    Except String String × ExtendedRequest × Bool :=
  match List.lookup contextName getters with
  | none =>
    let e := "Context type does not have getter function: " ++ contextName
    (.error e, { r with err := some e }, false)
  | some res =>
    match res with
    | .error e => (.error e, { r with err := some e }, true)
    | .ok v => (.ok v, r, true)

/-- A decoded JSON value as the Go `encoding/json` package with `UseNumber` produces
it: strings, numbers kept as their literal source token (`json.Number`),
objects, JSON null (also what indexing a missing key yields), and a
catch-all for arrays/booleans, which the lookup can only fail on. -/
inductive JVal where
  | str (s : String) : JVal
  | num (tok : String) : JVal
  | obj (fields : List (String × JVal)) : JVal
  | nullv : JVal
  | other : JVal

/-- Go map indexing on a decoded JSON object: a missing key reads as the
nil interface value (JSON null here). -/
def jsonIndex (fields : List (String × JVal)) (key : String) : JVal :=
  match List.lookup key fields with
  | some v => v
  | none => .nullv

/-- The key-path walk of `GetJSONInput`: each step casts the intermediate
to a JSON object and indexes it by the next argument. -/
def jsonWalk : JVal → List String → Except String JVal
  | v, [] => .ok v
  | .obj fields, a :: rest => jsonWalk (jsonIndex fields a) rest
  | _, _ :: _ =>
    .error "JSON parse fail. Unable to cast intermediate to jsonBody"

/-- Model of `GetJSONInput`
(src/webauthn_firewall/extended_request_handlers.go, lines 57-110).
`parse` is the external `json` decoder applied to the readable body bytes;
it consumes the body stream.  Numbers are decoded with `UseNumber`, so a
numeric leaf comes back as its literal token and `Number.String()` returns
that token unchanged.  On success the request is refilled so later readers
see the captured bytes; the error paths return before the refill. -/
def GetJSONInput (parse : List Nat → Except String JVal)
    (r : ExtendedRequest) (args : List String) :
    Except String String × ExtendedRequest :=
  if args.length < 1 then
    (.error ("JSON inputs expect at least 1 argument. Received: " ++
      toString args), r)
  else
    match parse r.body with
    | .error e => (.error e, { r with body := [] })
    | .ok v =>
      let r1 : ExtendedRequest := { r with body := [] }
      match jsonWalk v args with
      | .error e => (.error e, r1)
      | .ok leaf =>
        match leaf with
        | .str s => (.ok s, r1.refillExt)
        | .num tok => (.ok tok, r1.refillExt)
        | _ =>
          (.error "JSON parse fail. Unable to cast result to string", r1)

/-- A concrete environment for evaluating the handlers: every external
collaborator succeeds, the principal is `alice` with webauthn enabled, the
client echoes a nil extension map, and the request body decodes to no form
fields. -/
def baseEnv : Env where
  userIDFromSession := .ok 7
  isEnabled := true
  getUserOk := true
  getUserErrMsg := "user lookup failed"
  username := "alice"
  sessionOk := true
  sessionErrMsg := "error unmarshaling session data"
  sigValid := fun _ => true
  sigErrMsg := "error validating the assertion signature"
  echoed := fun _ => none
  beginLoginRes := .ok ()
  beginRegisterRes := .ok ()
  sessionSaveOk := true
  sessionSaveErrMsg := "session save failed"
  decodeForm := fun _ => []

/-- A request with an empty body and no parsed-form cache. -/
def reqEmpty : Req := ⟨[], none⟩

/-- `baseEnv` with an assertion form field supplied (the client still
echoes a nil extension map, so every expected transaction extension
mismatches). -/
def envAssert : Env := { baseEnv with
  decodeForm := fun _ => [("assertion", "blob")] }

/-- `baseEnv` with webauthn disabled and no form fields supplied. -/
def envDisabled : Env := { baseEnv with isEnabled := false }

/-- Webauthn disabled, an assertion supplied, and the authentication
session absent. -/
def envDisabledAssert : Env := { baseEnv with
  isEnabled := false
  sessionOk := false
  decodeForm := fun _ => [("assertion", "blob")] }

/-- Webauthn disabled, with the login form fields supplied. -/
def envDisabledLogin : Env := { baseEnv with
  isEnabled := false
  decodeForm := fun _ => [("user_name", "alice"), ("assertion", "blob")] }

/-- Webauthn disabled, with a repo-settings delete form supplied. -/
def envRepoDelete : Env := { baseEnv with
  isEnabled := false
  decodeForm := fun _ => [("action", "delete"), ("assertion", "blob")] }

/-- Login form fields supplied but a non-numeric `userID` and `username`
present: exercises the integer-parse failure of `beginRegister`. -/
def envBadUserID : Env := { baseEnv with
  decodeForm := fun _ => [("username", "alice"), ("userID", "abc")] }

/-- An otherwise fully valid assertion whose echoed client-data extensions
carry a transaction string (a non-nil map), with the login form fields
supplied. -/
def envEchoTx : Env := { baseEnv with
  echoed := fun _ => some [("txAuthSimple", "Confirm something")]
  decodeForm := fun _ => [("user_name", "alice"), ("assertion", "blob")] }

/-- A concrete JSON decode result: an object whose `id` leaf is the numeric
token 2^53 + 1, an integer a float64 cannot represent. -/
def jparse : List Nat → Except String JVal :=
  fun _ => .ok (JVal.obj [("id", JVal.num "9007199254740993")])

/-- Everything valid and the client echoing the nil extension map, with the
login form fields supplied. -/
def envLoginOk : Env := { baseEnv with
  decodeForm := fun _ => [("user_name", "alice"), ("assertion", "blob")] }

/-!
Theorems.  First the helper lemmas about the request/form model and
`checkWebauthnAssertion`, then one theorem per claim (with its witness or
counterexample where required).
-/

theorem formValue_fst (env : Env) (r : Req) (name : String) :
    (formValue env r name).1 = formLookup (currentForm env r) name := by
  unfold formValue currentForm
  cases r.form <;> simp

theorem formValue_snd_form (env : Env) (r : Req) (name : String) :
    (formValue env r name).2.form = some (currentForm env r) := by
  unfold formValue currentForm
  cases h : r.form <;> simp [h]

theorem currentForm_formValue_snd (env : Env) (r : Req) (name : String) :
    currentForm env (formValue env r name).2 = currentForm env r := by
  unfold formValue currentForm
  cases h : r.form <;> simp [h]

theorem formValue_snd_cached (env : Env) (r : Req) (name : String)
    (f : List (String × String)) (h : r.form = some f) :
    (formValue env r name).2 = r := by
  unfold formValue
  simp [h]

theorem checkWebauthnAssertion_no_forward (env : Env) (e : ExtMap) (a : String) :
    Effect.proxyForward ∉ (checkWebauthnAssertion env e a).2 := by
  unfold checkWebauthnAssertion
  split
  · simp
  · split
    · simp
    · split
      · simp
      · split <;> simp

theorem checkWebauthnAssertion_no_dbDelete (env : Env) (e : ExtMap)
    (a : String) (u : String) :
    Effect.dbDelete u ∉ (checkWebauthnAssertion env e a).2 := by
  unfold checkWebauthnAssertion
  split
  · simp
  · split
    · simp
    · split
      · simp
      · split <;> simp

theorem checkWebauthnAssertion_err_of_mismatch (env : Env) (e : ExtMap)
    (a : String) (h : deepEqualExt e (env.echoed a) = false) (u : Unit)
    (hok : (checkWebauthnAssertion env e a).1 = .ok u) : False := by
  unfold checkWebauthnAssertion at hok
  split at hok
  · simp at hok
  · split at hok
    · simp at hok
    · simp [h] at hok

theorem checkWebauthnAssertion_mismatch (env : Env) (e : ExtMap) (a : String)
    (h : deepEqualExt e (env.echoed a) = false) :
    ∃ msg, (checkWebauthnAssertion env e a).1 = .error msg := by
  unfold checkWebauthnAssertion
  split
  · exact ⟨env.getUserErrMsg, rfl⟩
  · split
    · exact ⟨env.sessionErrMsg, rfl⟩
    · simp [h]

/-- C9: for every successfully captured request, rewind is idempotent and
safe to call any number of times including zero: after `NewRequestRefiller`
and after any sequence of `Refill` calls, the request body holds exactly
the bytes captured at construction time, and reading it yields those
bytes. -/
theorem C9_refill_idempotent (r : Req) (n : Nat) :
    (Nat.iterate ((NewRequestRefiller r).1.refillReq) n
        (NewRequestRefiller r).2).body = r.body
    ∧ (goReadAll (Nat.iterate ((NewRequestRefiller r).1.refillReq) n
        (NewRequestRefiller r).2)).1 = r.body := by
  have h : ∀ m, (Nat.iterate ((NewRequestRefiller r).1.refillReq) m
      (NewRequestRefiller r).2).body = r.body := by
    intro m
    induction m with
    | zero =>
      simp [NewRequestRefiller, goReadAll, RequestRefiller.refillReq]
    | succ k _ =>
      rw [Function.iterate_succ_apply']
      simp [NewRequestRefiller, goReadAll, RequestRefiller.refillReq]
  exact ⟨h n, h n⟩

/-- C6 (code bug): on a forwarding request whose declared host has no
configured backend target, the dispatcher performs no outbound call and
never forwards, but the response status is the implicit HTTP 200 produced
by `w.Write` without `WriteHeader` — not a 403-class status, despite the
"403: Host forbidden" body text. -/
theorem C6_unknown_host_implicit_200 :
    fwServeHTTP [] "evil.example" =
      ⟨some 200, "403: Host forbidden evil.example", []⟩
    ∧ fwServeHTTP [("app.example", "https://localhost:3000")] "evil.example" =
      ⟨some 200, "403: Host forbidden evil.example", []⟩
    ∧ (fwServeHTTP [] "evil.example").status ≠ some 403 := by
  refine ⟨rfl, by decide, by decide⟩

/-- C3: for every principal queried by Begin-Login or Begin-Attestation
whose account does not have webauthn enabled, the begin operation returns
HTTP 200 with no options payload, without calling the ceremony-generation
primitive (`BeginLogin`) and without saving any authentication session —
the effect trace is empty (the only external call of the attestation wrapper is
the backend whoami lookup made before the enabled-check). -/
theorem C3_fail_open_begin (env : Env) (ext : ExtMap) (r rA : Req) (uid : Int)
    (hdis : env.isEnabled = false)
    (hu : formLookup (currentForm env r) "user_name" ≠ "")
    (hw : env.userIDFromSession = .ok uid)
    (ha : formLookup (currentForm env rA) "auth_text" ≠ "") :
    beginAttestation_base env ext = ⟨some 200, "", []⟩
    ∧ (beginLogin env r).1 = ⟨some 200, "", []⟩
    ∧ (beginAttestation env rA).1 = ⟨some 200, "", [.whoamiCall]⟩ := by
  have hbase : ∀ e, beginAttestation_base env e = ⟨some 200, "", []⟩ := by
    intro e
    unfold beginAttestation_base
    simp [hdis]
  refine ⟨hbase ext, ?_, ?_⟩
  · unfold beginLogin
    simp only [formValue_fst]
    rw [if_neg hu, hbase]
  · unfold beginAttestation
    rw [hw]
    simp only [formValue_fst]
    rw [if_neg ha, hbase]

/-- C3 witness: a concrete disabled principal with the required form
fields present. -/
theorem C3_fail_open_begin_witness :
    beginAttestation_base
        { baseEnv with isEnabled := false } (some [("txAuthSimple", "t")])
      = ⟨some 200, "", []⟩ := by
  exact (C3_fail_open_begin { baseEnv with isEnabled := false }
    (some [("txAuthSimple", "t")])
    ⟨[], some [("user_name", "alice")]⟩ ⟨[], some [("auth_text", "t")]⟩ 7
    rfl (by decide) rfl (by decide)).1

/-- C1: whenever a finish-assertion check is reached with an expected
transaction-extension map (disable-webauthn, delete-repository) and the
extension map echoed by the client is not `DeepEqual` to it, the check
returns an error, the handler responds 400, and the request is neither
forwarded nor is the effect of the handler performed — regardless of whether
the signature on the assertion is otherwise valid (`env.sigValid` is
unconstrained). -/
theorem C1_extension_mismatch_fails_closed
    (env : Env) (r : Req) (uname rname : String) (uid : Int)
    (hw : env.userIDFromSession = .ok uid)
    (ha : formLookup (currentForm env r) "assertion" ≠ "")
    (hen : env.isEnabled = true)
    (hmisD : deepEqualExt (disableExpected env)
      (env.echoed (formLookup (currentForm env r) "assertion")) = false)
    (hmisR : deepEqualExt (deleteRepoExpected uname rname)
      (env.echoed (formLookup (currentForm env r) "assertion")) = false) :
    (∃ msg, (checkWebauthnAssertion env (disableExpected env)
        (formLookup (currentForm env r) "assertion")).1 = .error msg)
    ∧ (disableWebauthn env r).1.status = some 400
    ∧ (∀ u, Effect.dbDelete u ∉ (disableWebauthn env r).1.effects)
    ∧ Effect.proxyForward ∉ (disableWebauthn env r).1.effects
    ∧ (deleteRepositoryHelper env uname rname r).1.status = some 400
    ∧ Effect.proxyForward ∉ (deleteRepositoryHelper env uname rname r).1.effects := by
  refine ⟨checkWebauthnAssertion_mismatch env _ _ hmisD, ?_⟩
  have hdis : (disableWebauthn env r).1.status = some 400
      ∧ (∀ u, Effect.dbDelete u ∉ (disableWebauthn env r).1.effects)
      ∧ Effect.proxyForward ∉ (disableWebauthn env r).1.effects := by
    unfold disableWebauthn
    rw [hw]
    simp only [formValue_fst]
    rw [if_neg ha]
    by_cases hg : env.getUserOk
    · simp only [hg, Bool.not_true, Bool.false_eq_true, if_false]
      cases hc : (checkWebauthnAssertion env (disableExpected env)
          (formLookup (currentForm env r) "assertion")).1 with
      | error e =>
        simp only [hc]
        refine ⟨by trivial, ?_, ?_⟩
        · intro u hmem
          rcases List.mem_append.mp hmem with h | h
          · simp at h
          · exact checkWebauthnAssertion_no_dbDelete env _ _ u h
        · intro hmem
          rcases List.mem_append.mp hmem with h | h
          · simp at h
          · exact checkWebauthnAssertion_no_forward env _ _ h
      | ok u =>
        exact absurd hc (fun h =>
          checkWebauthnAssertion_err_of_mismatch env _ _ hmisD u h)
    · simp only [hg]
      simp
  refine ⟨hdis.1, hdis.2.1, hdis.2.2, ?_⟩
  have hdel : (deleteRepositoryHelper env uname rname r).1.status = some 400
      ∧ Effect.proxyForward ∉
          (deleteRepositoryHelper env uname rname r).1.effects := by
    unfold deleteRepositoryHelper
    rw [hw]
    simp only [hen, if_true, formValue_fst]
    rw [if_neg ha]
    cases hc : (checkWebauthnAssertion env (deleteRepoExpected uname rname)
        (formLookup (currentForm env r) "assertion")).1 with
    | error e =>
      simp only [hc]
      refine ⟨by trivial, ?_⟩
      intro hmem
      rcases List.mem_append.mp hmem with h | h
      · simp at h
      · exact checkWebauthnAssertion_no_forward env _ _ h
    | ok u =>
      exact absurd hc (fun h =>
        checkWebauthnAssertion_err_of_mismatch env _ _ hmisR u h)
  exact hdel

/-- C1 witness: a concrete environment where every external collaborator
succeeds and even the signature is valid, but the client echoes a nil
extension map while the handlers expect a transaction string. -/
theorem C1_extension_mismatch_fails_closed_witness :
    (disableWebauthn envAssert reqEmpty).1.status = some 400
    ∧ Effect.proxyForward ∉
        (deleteRepositoryHelper envAssert
          "alice" "repo1" reqEmpty).1.effects := by
  have h := C1_extension_mismatch_fails_closed envAssert
    reqEmpty "alice" "repo1" 7 rfl (by decide) rfl rfl rfl
  exact ⟨h.2.1, h.2.2.2.2.2⟩

theorem checkWebauthnAssertion_ok_trace (env : Env) (e : ExtMap) (a : String)
    (u : Unit) (h : (checkWebauthnAssertion env e a).1 = .ok u) :
    (checkWebauthnAssertion env e a).2 =
      [.getUserCall, .sessionLoad, .finishLoginCall] := by
  unfold checkWebauthnAssertion at h ⊢
  by_cases h1 : env.getUserOk
  · by_cases h2 : env.sessionOk
    · simp only [h1, h2, Bool.not_true, Bool.false_eq_true, if_false]
      split
      · rfl
      · split <;> rfl
    · simp [h1, h2] at h
  · simp [h1] at h

/-- C2 counterexample: the disable-webauthn handler does NOT perform its
effect without a ceremony for a principal with webauthn disabled.  With no
assertion supplied it rejects with 500 and deletes nothing; with an
assertion supplied it fetches the webauthn user and loads the
authentication ceremony session (failing with 400 here) — the full ceremony
machinery runs even though `isEnabled` is false. -/
theorem C2_counterexample :
    (disableWebauthn envDisabled reqEmpty).1 =
      ⟨some 500, "Invalid form-data parameters", [.whoamiCall]⟩
    ∧ (disableWebauthn envDisabledAssert reqEmpty).1 =
      ⟨some 400, "error unmarshaling session data",
        [.whoamiCall, .getUserCall, .getUserCall, .sessionLoad]⟩ :=
  ⟨rfl, rfl⟩

/-- C2 amended: the secured handlers that gate on the enabled-check
(delete-repository, finish-login) perform their effect with no ceremony
when the account of the principal is not enabled — the only external calls are
the whoami lookup and the forward itself.  The disable-webauthn handler is
the exception: it never consults the enabled-check, and it performs its
effect only after an assertion-verification call has been made. -/
theorem C2_amended_fail_open_except_disable
    (env : Env) (r : Req) (u rn : String) (uid : Int)
    (hw : env.userIDFromSession = .ok uid)
    (hdis : env.isEnabled = false)
    (hu : formLookup (currentForm env r) "user_name" ≠ "")
    (ha : formLookup (currentForm env r) "assertion" ≠ "") :
    (deleteRepositoryHelper env u rn r).1 =
      ⟨none, "", [.whoamiCall, .proxyForward]⟩
    ∧ (finishLogin env r).1 = ⟨none, "", [.proxyForward]⟩
    ∧ (∀ env' : Env, ∀ r' : Req, ∀ u' : String,
        Effect.dbDelete u' ∈ (disableWebauthn env' r').1.effects →
        Effect.finishLoginCall ∈ (disableWebauthn env' r').1.effects) := by
  refine ⟨?_, ?_, ?_⟩
  · unfold deleteRepositoryHelper
    rw [hw]
    simp [hdis]
  · unfold finishLogin
    simp only [formValue_fst, currentForm_formValue_snd]
    rw [if_neg ?h1]
    case h1 =>
      rintro (h | h)
      · exact hu h
      · exact ha h
    simp [hdis]
  · intro env' r' u' hmem
    unfold disableWebauthn at hmem ⊢
    cases hwho : env'.userIDFromSession with
    | error e => simp [hwho] at hmem
    | ok uid' =>
      simp only [hwho] at hmem ⊢
      by_cases hempty : (formValue env' r' "assertion").1 = ""
      · simp [hempty] at hmem
      · simp only [if_neg hempty] at hmem ⊢
        by_cases hg : env'.getUserOk
        · simp only [hg, Bool.not_true, Bool.false_eq_true, if_false]
            at hmem ⊢
          cases hc : (checkWebauthnAssertion env'
              (disableExpected env') ((formValue env' r' "assertion").1)).1 with
          | error e =>
            simp only [hc] at hmem
            rcases List.mem_append.mp hmem with h | h
            · simp at h
            · exact absurd h
                (checkWebauthnAssertion_no_dbDelete env' _ _ u')
          | ok uu =>
            simp only [hc,
              checkWebauthnAssertion_ok_trace env' _ _ uu hc] at hmem ⊢
            simp
        · simp [hg] at hmem

/-- C2 amended witness: a concrete disabled principal; delete-repository
and finish-login forward without any ceremony call. -/
theorem C2_amended_witness :
    (deleteRepositoryHelper envDisabledLogin "alice" "repo1" reqEmpty).1 =
      ⟨none, "", [.whoamiCall, .proxyForward]⟩
    ∧ (finishLogin envDisabledLogin reqEmpty).1 =
      ⟨none, "", [.proxyForward]⟩ := by
  have h := C2_amended_fail_open_except_disable envDisabledLogin
    reqEmpty "alice" "repo1" 7 rfl rfl (by decide) (by decide)
  exact ⟨h.1, h.2.1⟩

theorem finishLogin_cases (env : Env) (r0 : Req) :
    Effect.proxyForward ∉ (finishLogin env r0).1.effects ∨
    (finishLogin env r0).2.body = r0.body := by
  simp only [finishLogin]
  split
  · left
    simp
  · split
    · split
      · left
        exact checkWebauthnAssertion_no_forward env _ _
      · right
        rfl
    · right
      rfl

theorem repoSettings_cases (env : Env) (u rn : String) (r0 : Req) :
    Effect.proxyForward ∉ (repoSettings env u rn r0).1.effects ∨
    (repoSettings env u rn r0).2.body = r0.body := by
  simp only [repoSettings]
  split
  · left
    simp
  · split
    · simp only [deleteRepositoryHelper]
      have hf : (⟨r0.body, (formValue env { r0 with body := r0.body }
            "action").2.form⟩ : Req).form
          = some (currentForm env { r0 with body := r0.body }) := by
        simpa using formValue_snd_form env { r0 with body := r0.body }
          "action"
      rw [formValue_snd_cached env _ "assertion" _ hf]
      split
      · left
        simp
      · split
        · split
          · left
            simp
          · split
            · left
              intro h
              rcases List.mem_append.mp h with h | h
              · simp at h
              · exact absurd h (checkWebauthnAssertion_no_forward env _ _)
            · right
              rfl
        · right
          rfl
    · right
      rfl

/-- C5: whenever finish-login or the repo-settings dispatch hands the
request to the reverse proxy, the body it forwards is byte-identical to
the body captured when the handler started (the `RequestRefiller` refills
before the forward, and the `FormValue` call of the delete sub-handler hits the
form cache populated by the dispatcher, so it does not consume the refilled
body). -/
theorem C5_forwarded_body_identical (env : Env) (r0 : Req) (u rn : String) :
    (Effect.proxyForward ∈ (finishLogin env r0).1.effects →
      (finishLogin env r0).2.body = r0.body)
    ∧ (Effect.proxyForward ∈ (repoSettings env u rn r0).1.effects →
      (repoSettings env u rn r0).2.body = r0.body) := by
  constructor
  · intro h
    rcases finishLogin_cases env r0 with hn | hb
    · exact absurd h hn
    · exact hb
  · intro h
    rcases repoSettings_cases env u rn r0 with hn | hb
    · exact absurd h hn
    · exact hb

/-- C5 witness: for a disabled principal, finish-login and a repo-settings
delete dispatch both forward, and the forwarded body equals the captured
body. -/
theorem C5_forwarded_body_identical_witness :
    (finishLogin envDisabledLogin ⟨[7, 7], none⟩).2.body = [7, 7]
    ∧ (repoSettings envRepoDelete "alice" "repo1" ⟨[7, 7], none⟩).2.body
      = [7, 7] := by
  have h := C5_forwarded_body_identical envDisabledLogin ⟨[7, 7], none⟩
    "alice" "repo1"
  have h2 := C5_forwarded_body_identical envRepoDelete ⟨[7, 7], none⟩
    "alice" "repo1"
  exact ⟨h.1 (by decide), h2.2 (by decide)⟩

/-- C4 counterexample: a request whose error slot already holds a first
error.  A subsequent context accessor call nonetheless performs the
underlying lookup (third component `true`) and returns the fresh result,
not the recorded first error — `GetContext_WithErr` never consults
`r.err`. -/
theorem C4_counterexample :
    GetContext_WithErr [("sshKeyName", Except.ok "key-7")]
        ⟨[], [], some "first error"⟩ "sshKeyName"
      = (.ok "key-7", ⟨[], [], some "first error"⟩, true) := rfl

/-- C4 amended: the accessors routed through the shared input helper
(form, URL, structured-body and the default getter, with their Int64
variants) are sticky: once the error slot is set, they return that same
first error without performing the underlying lookup, and a first failure
records itself in the slot.  Context lookups are the exception: they do not
short-circuit — a registered resolver always runs — but a failing context
lookup does set the error slot, so helper-based accessors after it are
sticky on it. -/
theorem C4_amended_sticky_helper_only (r : ExtendedRequest) (e : String)
    (fnResult : Except String String)
    (getters : List (String × Except String String)) (n : String) :
    (r.err = some e →
      getInput_WithErr_Helper r fnResult = (.error e, r, false))
    ∧ (r.err = none → fnResult = .error e →
      getInput_WithErr_Helper r fnResult =
        (.error e, { r with err := some e }, true))
    ∧ (List.lookup n getters = some (.error e) →
      GetContext_WithErr getters r n =
        (.error e, { r with err := some e }, true)) := by
  refine ⟨?_, ?_, ?_⟩
  · intro h
    unfold getInput_WithErr_Helper
    rw [h]
  · intro h hf
    unfold getInput_WithErr_Helper
    rw [h, hf]
  · intro h
    unfold GetContext_WithErr
    rw [h]

/-- C4 amended witness: the helper short-circuits on a recorded error, and
records a first failure. -/
theorem C4_amended_sticky_helper_only_witness :
    getInput_WithErr_Helper ⟨[], [], some "boom"⟩ (.ok "v")
      = (.error "boom", ⟨[], [], some "boom"⟩, false)
    ∧ getInput_WithErr_Helper ⟨[], [], none⟩ (.error "bad")
      = (.error "bad", ⟨[], [], some "bad"⟩, true)
    ∧ GetContext_WithErr [("k", Except.error "ctx")] ⟨[], [], none⟩ "k"
      = (.error "ctx", ⟨[], [], some "ctx"⟩, true) := by
  refine ⟨?_, ?_, ?_⟩
  · exact (C4_amended_sticky_helper_only ⟨[], [], some "boom"⟩ "boom"
      (.ok "v") [] "k").1 rfl
  · exact (C4_amended_sticky_helper_only ⟨[], [], none⟩ "bad"
      (.error "bad") [] "k").2.1 rfl rfl
  · exact (C4_amended_sticky_helper_only ⟨[], [], none⟩ "ctx"
      (.ok "v") [("k", Except.error "ctx")] "k").2.2 rfl

/-- C7 counterexample: a missing `username` and a malformed `userID` are
rejected immediately with HTTP 500 (`http.StatusInternalServerError`), not
with a 4xx-class status as claimed — though indeed before any external
call (empty effect trace) and with an error message describing the bad
input. -/
theorem C7_counterexample :
    (beginRegister baseEnv reqEmpty).1 =
      ⟨some 500, "Invalid form-data parameters", []⟩
    ∧ (beginRegister envBadUserID reqEmpty).1 =
      ⟨some 500, "strconv.ParseInt: parsing \"abc\": invalid syntax", []⟩
    ∧ ¬(400 ≤ 500 ∧ 500 < 500) := by
  refine ⟨rfl, rfl, by omega⟩

/-- C7 amended: a missing or malformed client input field is rejected
immediately — before the ceremony primitive or any other external system is
contacted (empty effect trace) — with HTTP 500 Internal Server Error (not a
4xx status), and the error text describes the problem: the constant
`"Invalid form-data parameters"` for a missing field, the `strconv` parse
error (which names the offending value) for a non-numeric `userID`. -/
theorem C7_amended_reject_500 (env : Env) (r : Req) (e : String) :
    (formLookup (currentForm env r) "username" = "" →
      (beginRegister env r).1 =
        ⟨some 500, "Invalid form-data parameters", []⟩)
    ∧ (formLookup (currentForm env r) "username" ≠ "" →
      go_parseInt64 (formLookup (currentForm env r) "userID") = .error e →
      (beginRegister env r).1 = ⟨some 500, e, []⟩)
    ∧ ((formLookup (currentForm env r) "user_name" = "" ∨
        formLookup (currentForm env r) "assertion" = "") →
      (finishLogin env r).1 =
        ⟨some 500, "Invalid form-data parameters", []⟩) := by
  refine ⟨?_, ?_, ?_⟩
  · intro h
    unfold beginRegister
    simp only [formValue_fst]
    rw [if_pos h]
  · intro h hp
    unfold beginRegister
    simp only [formValue_fst, currentForm_formValue_snd]
    rw [if_neg h, hp]
  · intro h
    unfold finishLogin
    simp only [formValue_fst, currentForm_formValue_snd]
    rw [if_pos ?hcond]
    case hcond =>
      rcases h with h | h
      · exact Or.inl h
      · exact Or.inr h

/-- C7 amended witness: concrete requests with a missing `username`, a
non-numeric `userID`, and missing login fields. -/
theorem C7_amended_reject_500_witness :
    (beginRegister envDisabled reqEmpty).1 =
      ⟨some 500, "Invalid form-data parameters", []⟩
    ∧ (beginRegister envBadUserID ⟨[3], none⟩).1 =
      ⟨some 500, "strconv.ParseInt: parsing \"abc\": invalid syntax", []⟩
    ∧ (finishLogin envDisabled ⟨[3], none⟩).1 =
      ⟨some 500, "Invalid form-data parameters", []⟩ := by
  refine ⟨?_, ?_, ?_⟩
  · exact (C7_amended_reject_500 envDisabled reqEmpty "x").1 rfl
  · exact (C7_amended_reject_500 envBadUserID ⟨[3], none⟩
      "strconv.ParseInt: parsing \"abc\": invalid syntax").2.1
      (by decide) rfl
  · exact (C7_amended_reject_500 envDisabled ⟨[3], none⟩ "x").2.2
      (Or.inl rfl)

/-- C8: structured-body lookup decodes numeric leaves via the
arbitrary-precision `json.Number` token, so an integer leaf comes back as
its exact literal string — no precision loss for any integer — and every
successful lookup re-arms the Buffered Request: the resulting body stream
again holds the captured bytes. -/
theorem C8_json_number_lossless (parse : List Nat → Except String JVal)
    (r : ExtendedRequest) (args : List String) :
    (∀ ret r2, GetJSONInput parse r args = (.ok ret, r2) →
      r2.body = r.data)
    ∧ (∀ v : JVal, ∀ n : Int, 0 < args.length →
      parse r.body = .ok v →
      jsonWalk v args = .ok (JVal.num (toString n)) →
      (GetJSONInput parse r args).1 = .ok (toString n)) := by
  constructor
  · intro ret r2 h
    unfold GetJSONInput at h
    split at h
    · simp at h
    · split at h
      · simp at h
      · split at h
        · simp at h
        · split at h
          · simp only [Prod.mk.injEq] at h
            rw [← h.2]
            rfl
          · simp only [Prod.mk.injEq] at h
            rw [← h.2]
            rfl
          · simp at h
  · intro v n hlen hp hw
    unfold GetJSONInput
    rw [if_neg (by omega)]
    simp only [hp, hw]

/-- C8 witness: looking up the numeric leaf 2^53 + 1 (not representable in
a float64) returns its exact decimal string, and the body stream afterwards
holds the captured bytes again. -/
theorem C8_json_number_lossless_witness :
    (GetJSONInput jparse ⟨[1], [1, 2], none⟩ ["id"]).1
      = .ok (toString (9007199254740993 : Int))
    ∧ (GetJSONInput jparse ⟨[1], [1, 2], none⟩ ["id"]).2.body
      = ([1, 2] : List Nat) := by
  constructor
  · exact (C8_json_number_lossless jparse ⟨[1], [1, 2], none⟩ ["id"]).2
      (JVal.obj [("id", JVal.num "9007199254740993")]) 9007199254740993
      (by decide) rfl rfl
  · exact (C8_json_number_lossless jparse ⟨[1], [1, 2], none⟩ ["id"]).1
      "9007199254740993" (GetJSONInput jparse ⟨[1], [1, 2], none⟩ ["id"]).2
      rfl

theorem checkWebauthnAssertion_ok_inv (env : Env) (e : ExtMap) (a : String)
    (u : Unit) (h : (checkWebauthnAssertion env e a).1 = .ok u) :
    env.getUserOk = true ∧ env.sessionOk = true ∧ env.sigValid a = true := by
  unfold checkWebauthnAssertion at h
  by_cases h1 : env.getUserOk
  · by_cases h2 : env.sessionOk
    · refine ⟨h1, h2, ?_⟩
      by_cases h4 : env.sigValid a
      · exact h4
      · exfalso
        simp only [h1, h2, h4, Bool.not_true, Bool.not_false,
          Bool.false_eq_true, if_false, if_true] at h
        split at h <;> simp at h
    · simp [h1, h2] at h
  · simp [h1] at h

/-- C10 counterexample: an otherwise fully valid assertion whose echoed
extension map is a non-nil `txAuthSimple` map.  The legacy handler (whose
verifier accepts anything) forwards the login to the backend; the newer
handler, whose verifier demands `reflect.DeepEqual(nil, echoed)`, rejects
it with 400 — so the two implementations are not behaviorally
equivalent. -/
theorem C10_counterexample :
    (finishLoginLegacy envEchoTx reqEmpty).1.status = none
    ∧ (finishLogin envEchoTx reqEmpty).1.status = some 400 := ⟨rfl, rfl⟩

/-- C10 amended: the newer finish-login refines the legacy one instead of
matching it: every request the newer handler forwards, the legacy handler
forwards too, and when the client-echoed extension map is `DeepEqual` to
the nil map the two handlers behave identically (same response, same
effects, same request state); but on an otherwise-valid assertion echoing a
non-nil extension map the legacy handler succeeds while the newer one
rejects. -/
theorem C10_amended_refinement (env : Env) (r0 : Req) :
    ((finishLogin env r0).1.status = none →
      (finishLoginLegacy env r0).1.status = none)
    ∧ ((∀ s, deepEqualExt none (env.echoed s) = true) →
      finishLogin env r0 = finishLoginLegacy env r0) := by
  constructor
  · intro h
    by_cases hcond : ((formValue env { r0 with body := r0.body }
        "user_name").1 = "" ∨
        (formValue env (formValue env { r0 with body := r0.body }
          "user_name").2 "assertion").1 = "")
    · exfalso
      revert h
      simp [finishLogin, hcond]
    · by_cases hen : env.isEnabled
      · cases hc : (checkWebauthnAssertion env none
            ((formValue env (formValue env { r0 with body := r0.body }
              "user_name").2 "assertion").1)).1 with
        | error e =>
          exfalso
          revert h
          simp [finishLogin, hcond, hen, hc]
        | ok uu =>
          obtain ⟨hg, hs, hv⟩ :=
            checkWebauthnAssertion_ok_inv env none _ uu hc
          simp [finishLoginLegacy, hcond, hen, hg, hs, hv]
      · simp [finishLoginLegacy, hcond, hen]
  · intro hnil
    by_cases hcond : ((formValue env { r0 with body := r0.body }
        "user_name").1 = "" ∨
        (formValue env (formValue env { r0 with body := r0.body }
          "user_name").2 "assertion").1 = "")
    · simp [finishLogin, finishLoginLegacy, hcond]
    · by_cases hen : env.isEnabled
      · by_cases hg : env.getUserOk
        · by_cases hs : env.sessionOk
          · by_cases hv : env.sigValid ((formValue env (formValue env
                { r0 with body := r0.body } "user_name").2 "assertion").1)
            · simp [finishLogin, finishLoginLegacy, checkWebauthnAssertion,
                hcond, hen, hg, hs, hv, hnil]
            · simp [finishLogin, finishLoginLegacy, checkWebauthnAssertion,
                hcond, hen, hg, hs, hv, hnil]
          · simp [finishLogin, finishLoginLegacy, checkWebauthnAssertion,
              hcond, hen, hg, hs]
        · simp [finishLogin, finishLoginLegacy, checkWebauthnAssertion,
            hcond, hen, hg]
      · simp [finishLogin, finishLoginLegacy, hcond, hen]

/-- C10 amended witness: with a client echoing the nil extension map the
two handlers agree (here: both forward), and the refinement direction is
exercised at the same input. -/
theorem C10_amended_refinement_witness :
    finishLogin envLoginOk reqEmpty = finishLoginLegacy envLoginOk reqEmpty
    ∧ (finishLoginLegacy envLoginOk reqEmpty).1.status = none := by
  have h := C10_amended_refinement envLoginOk reqEmpty
  refine ⟨h.2 (fun _ => rfl), h.1 rfl⟩

end Guarda
